import Mathlib

/-!
# RTTR: default-argument resolution and constructor wrappers

A shallow embedding of `rttr/detail/default_arguments/default_arguments.h` and
`rttr/detail/constructor/constructor_wrapper.h`.

The two headers are template metaprograms: their inputs are C++ types and packs
of types.  Types are embedded as the inductive `CppType`, a pack `T...` (or a
`type_list<T...>`) as a `List CppType`, and every class template with a member
`type` or `value` as a function that computes that member.  `std::is_same` is
equality of `CppType`.
-/

namespace rttr

/-! ## C++ types -/

/-- Names of non-compound object types: some fundamental types and user classes. -/
inductive TypeName where
  | bool
  | char
  | int
  | double
  | class_ (id : Nat)
  deriving DecidableEq, Repr

/-- Whether a type is a reference, and of which kind. -/
inductive RefKind where
  | none
  | lvalue
  | rvalue
  deriving DecidableEq, Repr

/-- The C++ types the metaprograms inspect: an object, pointer, bundle or
function type, or a reference to one (`ref`).  `is_const` and `is_volatile` are
the qualifiers of the object, pointer or bundle type itself; a function type has
none, and a reference type has none at top level.  References to references do
not exist in C++ and cannot be written here. -/
inductive CppType where
  | object (name : TypeName) (is_const is_volatile : Bool) (ref : RefKind)
  | pointer (pointee : CppType) (is_const is_volatile : Bool) (ref : RefKind)
  | default_args (T : List CppType) (is_const is_volatile : Bool) (ref : RefKind)
  | function (ret : CppType) (args : List CppType) (ref : RefKind)

mutual
/-- Structural equality test on types, the meaning of `std::is_same`. -/
def CppType.decEq : (a b : CppType) → Decidable (a = b)
  | .object n c v r, .object n2 c2 v2 r2 =>
      if h : n = n2 ∧ c = c2 ∧ v = v2 ∧ r = r2 then
        isTrue (by rcases h with ⟨rfl, rfl, rfl, rfl⟩; rfl)
      else isFalse (fun e => h (by cases e; exact ⟨rfl, rfl, rfl, rfl⟩))
  | .pointer p c v r, .pointer p2 c2 v2 r2 =>
      match CppType.decEq p p2 with
      | isTrue hp =>
        if h : c = c2 ∧ v = v2 ∧ r = r2 then isTrue (by rcases h with ⟨rfl, rfl, rfl⟩; rw [hp])
        else isFalse (fun e => h (by cases e; exact ⟨rfl, rfl, rfl⟩))
      | isFalse hp => isFalse (fun e => hp (by cases e; rfl))
  | .default_args T c v r, .default_args T2 c2 v2 r2 =>
      match CppType.decEqList T T2 with
      | isTrue hp =>
        if h : c = c2 ∧ v = v2 ∧ r = r2 then isTrue (by rcases h with ⟨rfl, rfl, rfl⟩; rw [hp])
        else isFalse (fun e => h (by cases e; exact ⟨rfl, rfl, rfl⟩))
      | isFalse hp => isFalse (fun e => hp (by cases e; rfl))
  | .function t a r, .function t2 a2 r2 =>
      match CppType.decEq t t2, CppType.decEqList a a2 with
      | isTrue ht, isTrue ha =>
        if h : r = r2 then isTrue (by rw [ht, ha, h])
        else isFalse (fun e => h (by cases e; rfl))
      | isFalse ht, _ => isFalse (fun e => ht (by cases e; rfl))
      | _, isFalse ha => isFalse (fun e => ha (by cases e; rfl))
  | .object .., .pointer .. | .object .., .default_args .. | .object .., .function ..
  | .pointer .., .object .. | .pointer .., .default_args .. | .pointer .., .function ..
  | .default_args .., .object .. | .default_args .., .pointer .. | .default_args .., .function ..
  | .function .., .object .. | .function .., .pointer .. | .function .., .default_args .. =>
      isFalse (fun e => by cases e)
/-- Structural equality test on type lists. -/
def CppType.decEqList : (as bs : List CppType) → Decidable (as = bs)
  | [], [] => isTrue rfl
  | [], _ :: _ => isFalse (fun e => by cases e)
  | _ :: _, [] => isFalse (fun e => by cases e)
  | a :: as, b :: bs =>
      match CppType.decEq a b, CppType.decEqList as bs with
      | isTrue h1, isTrue h2 => isTrue (by rw [h1, h2])
      | isFalse h1, _ => isFalse (fun e => h1 (by cases e; rfl))
      | _, isFalse h2 => isFalse (fun e => h2 (by cases e; rfl))
end

instance : DecidableEq CppType := CppType.decEq

/-- The reference kind of a type. -/
def CppType.ref_kind : CppType → RefKind
  | .object _ _ _ r => r
  | .pointer _ _ _ r => r
  | .default_args _ _ _ r => r
  | .function _ _ r => r

/-- The same type with another reference kind. -/
def CppType.with_ref (k : RefKind) : CppType → CppType
  | .object n c v _ => .object n c v k
  | .pointer p c v _ => .pointer p c v k
  | .default_args T c v _ => .default_args T c v k
  | .function t a _ => .function t a k

/-- The type `T&`; by reference collapsing it is an lvalue reference for every `T`. -/
def lvalue_reference (T : CppType) : CppType := T.with_ref .lvalue

/-- The type `T&&`; by reference collapsing it is `T` when `T` is a reference. -/
def rvalue_reference (T : CppType) : CppType :=
  match T.ref_kind with
  | .none => T.with_ref .rvalue
  | _ => T

/-- The unqualified object type `bool`. -/
def bool_ : CppType := .object .bool false false .none
/-- The unqualified object type `char`. -/
def char_ : CppType := .object .char false false .none
/-- The unqualified object type `int`. -/
def int_ : CppType := .object .int false false .none
/-- The unqualified object type `double`. -/
def double_ : CppType := .object .double false false .none
/-- The type `const int`. -/
def const_int : CppType := .object .int true false .none

/-! ## Standard type traits -/

/-- The trait `std::remove_reference_t`: the referred type of a reference, any
other type unchanged. -/
def remove_reference_t (T : CppType) : CppType := T.with_ref .none

/-- The trait `std::remove_cv_t`: drops the top-level `const` and `volatile`;
function and reference types have no such qualifiers. -/
def remove_cv_t : CppType → CppType
  | .object n _ _ .none => .object n false false .none
  | .pointer p _ _ .none => .pointer p false false .none
  | .default_args T _ _ .none => .default_args T false false .none
  | t => t

/-- The trait `std::remove_const_t`: drops the top-level `const` only. -/
def remove_const_t : CppType → CppType
  | .object n _ v .none => .object n false v .none
  | .pointer p _ v .none => .pointer p false v .none
  | .default_args T _ v .none => .default_args T false v .none
  | t => t

/-- The trait `std::is_function`. -/
def is_function : CppType → Bool
  | .function _ _ .none => true
  | _ => false

/-- The trait `std::is_reference`: lvalue and rvalue references. -/
def is_reference (T : CppType) : Bool :=
  match T.ref_kind with
  | .none => false
  | _ => true

/-- The trait `std::is_const`: the top-level `const` of an object, pointer or
bundle type; a function type and a reference type are never const. -/
def is_const : CppType → Bool
  | .object _ c _ .none => c
  | .pointer _ c _ .none => c
  | .default_args _ c _ .none => c
  | _ => false

/-- Modelled from the spec: `raw_type_t` of `misc_type_traits.h`, which is not
among the sources.  The glossary defines the raw type as "the identity of a type with
reference and const/volatile qualifiers stripped". -/
def raw_type_t (T : CppType) : CppType := remove_cv_t (remove_reference_t T)

/-- Modelled from the spec: `as_type_list_t<typename function_traits<T>::arg_types>`
of `function_traits.h`, which is not among the sources: the ordered parameter
types of the function type `T` ("the low-level function-signature introspection
utility"). -/
def function_traits_arg_types : CppType → List CppType
  | .function _ args _ => args
  | _ => []

/-! ## default_arguments.h -/

/-- The class template `default_args<T...>`, as an unqualified type. -/
def default_args (T : List CppType) : CppType := .default_args T false false .none

/-- The alias `decay_type` of `find_default_args_impl`:
`remove_cv_t<remove_reference_t<Tx>>`. -/
def decay_type (Tx : CppType) : CppType := remove_cv_t (remove_reference_t Tx)

/-- The member `type` of `find_default_args_impl<Arg_list, Default_Arg_List>`:
the signature is compared with the bundle, then the signature without its first
type, and so on; the empty signature gives `default_args<>`. -/
def find_default_args_impl : List CppType → CppType → CppType
  | [], _ => default_args []
  | T :: TArgs, Default_Arg_List =>
      let func_args := default_args (decay_type T :: TArgs.map decay_type)
      if func_args = Default_Arg_List then Default_Arg_List
      else find_default_args_impl TArgs Default_Arg_List

/-- The trait `is_not_one_argument<TArgs...>`. -/
def is_not_one_argument (TArgs : List CppType) : Bool := TArgs.length != 1

/-- The member `type` of `find_default_args_helper<Default_Arg_List, type_list<...>>`.
Its three partial specialisations are: a single function type, a single type
that is no function, and a list that `is_not_one_argument`. -/
def find_default_args_helper (Default_Arg_List : CppType) : List CppType → CppType
  | [T] =>
      if is_function T then
        find_default_args_impl (function_traits_arg_types T) Default_Arg_List
      else
        find_default_args_impl [T] Default_Arg_List
  | TArgs => find_default_args_impl TArgs Default_Arg_List

/-- The alias `find_default_args_t<Default_Arg_List, TArgs...>`. -/
def find_default_args_t (Default_Arg_List : CppType) (TArgs : List CppType) : CppType :=
  find_default_args_helper Default_Arg_List TArgs

/-- The three partial specialisations of `find_default_args_helper`, in source
order: "is function", "is ctor with one argument", "is ctor with zero or more
then one argument". -/
inductive helper_specialisation where
  | is_function_
  | is_ctor_with_one_argument
  | is_ctor_with_zero_or_more_arguments
  deriving DecidableEq, Repr

/-- The member `type` of one partial specialisation of `find_default_args_helper`
for a target `type_list`: `none` when the specialisation does not match the list
or its `enable_if_t` condition is false, otherwise the `type` inherited from its
base class. -/
def helper_specialisation.type (Default_Arg_List : CppType) :
    helper_specialisation → List CppType → Option CppType
  | .is_function_, [T] =>
      if is_function T then
        some (find_default_args_impl (function_traits_arg_types T) Default_Arg_List)
      else none
  | .is_function_, _ => none
  | .is_ctor_with_one_argument, [T] =>
      if !is_function T then some (find_default_args_impl [T] Default_Arg_List) else none
  | .is_ctor_with_one_argument, _ => none
  | .is_ctor_with_zero_or_more_arguments, TArgs =>
      if is_not_one_argument TArgs then some (find_default_args_impl TArgs Default_Arg_List)
      else none

/-- The trait `is_def_type<T>`: true exactly for a specialisation
`default_args<TArgs...>`; the primary template (any other type, a qualified or
reference type included) is false. -/
def is_def_type : CppType → Bool
  | .default_args _ false false .none => true
  | _ => false

/-- The member `type` of `get_default_args_impl<type_list<...>>`. -/
def get_default_args_impl : List CppType → CppType
  | [] => default_args []
  | T :: TArgs => if is_def_type T then T else get_default_args_impl TArgs

/-- The alias `get_default_args_t<TArgs...>`. -/
def get_default_args_t (TArgs : List CppType) : CppType := get_default_args_impl TArgs

/-- The alias `has_default_args<Args...>`, as the `value` of the selected
`std::false_type` or `std::true_type`. -/
def has_default_args (Args : List CppType) : Bool :=
  if get_default_args_t Args = default_args [] then false else true

/-- The `value` of `has_default_types<type_list<Acc_Args...>, type_list<TArgs...>>`. -/
def has_default_types (Acc_Args TArgs : List CppType) : Bool :=
  if find_default_args_t (get_default_args_t TArgs) Acc_Args = default_args [] then false
  else true

/-- The member `value` of `count_default_args_impl<type_list<...>>`. -/
def count_default_args_impl : List CppType → Nat
  | [] => 0
  | T :: TArgs =>
      if is_def_type T then count_default_args_impl TArgs + 1
      else count_default_args_impl TArgs

/-- The member `value` of `count_default_args<TArgs...>`, which scans
`type_list<raw_type_t<TArgs>...>`. -/
def count_default_args (TArgs : List CppType) : Nat :=
  count_default_args_impl (TArgs.map raw_type_t)

/-- Runtime values as far as `get_default_args` tells them apart: an object the
caller supplied, or the value-initialised object `T()`. -/
inductive Value where
  | supplied (id : Nat)
  | default_constructed (T : CppType)
  deriving DecidableEq

/-- A value together with a type: for an element of the pack `Args&&... arg`
the deduced type `Args`, for a returned object its static type. -/
structure typed_value where
  type : CppType
  value : Value
  deriving DecidableEq

/-- Modelled from the spec: `forward_to_vector<T>(args...)` of
`argument_extractor.h`, which is not among the sources.  The spec says it
"locates the actual value of that type among the runtime argument pack (via a
forwarding extraction into a single-element ordered collection)": the values of
the pack elements whose type, reference and qualifiers apart, is `T`, in pack
order. -/
def forward_to_vector (T : CppType) (arg : List typed_value) : List Value :=
  (arg.filter (fun a => raw_type_t a.type = T)).map (fun a => a.value)

/-- The two overloads of `get_default_args<TArgs...>(Args&&... arg)`; the
`enable_if_t` conditions on `Default_Type` select one of them. -/
def get_default_args (TArgs : List CppType) (arg : List typed_value) : typed_value :=
  let Default_Type := find_default_args_t (get_default_args_t (arg.map (fun a => a.type))) TArgs
  if Default_Type = default_args [] then
    ⟨Default_Type, Value.default_constructed (default_args [])⟩
  else
    let result := forward_to_vector Default_Type arg
    match result with
    | r :: _ => ⟨Default_Type, r⟩
    | [] => ⟨Default_Type, Value.default_constructed Default_Type⟩

/-! ## constructor_wrapper.h -/

/-- Modelled from the spec: the type-erased argument wrapper `argument` of
`argument.h`, which is not among the sources: it "carries one incoming call
argument plus enough type information for the underlying invoker". -/
structure argument where
  type : CppType
  data : Nat
  deriving DecidableEq

/-- Modelled from the spec: the type-erased value container `variant` of
`variant.h`, which is not among the sources: "constructible from any concrete
value, default-constructible to represent no value / failure". -/
inductive variant where
  | empty
  | holds (type : CppType) (data : Nat)
  deriving DecidableEq

/-- Modelled from the spec: the type identity `type` of `type.h`, which is not
among the sources: "a canonical, comparable identity for any concrete type".
The function `type::get<T>()` is a parameter `type_get` of the members that
call it. -/
structure type where
  id : Nat
  deriving DecidableEq

/-- Modelled from the spec: the class `instance` of `instance.h`, which is not
among the sources; `instance()` is the "implicit no bound instance placeholder"
the factory wrapper passes. -/
inductive instance_ where
  | empty
  | bound (object : Nat)
  deriving DecidableEq

/-- The specialisation `constructor_wrapper<Class_Type, class_ctor, Policy,
default_args<>, Ctor_Args...>`.  The static function `invoker_class::invoke` of
`constructor_invoker.h` is not among the sources and is a field, and so is the
member type `invoker_class::return_type`. -/
structure constructor_wrapper where
  Ctor_Args : List CppType
  invoker_class_invoke : List argument → variant
  invoker_class_return_type : CppType

/-- The helper `make_index_sequence<N>`: the indices `0, ..., N-1`. -/
def make_index_sequence (N : Nat) : List Nat := List.range N

/-- The pack expansion `arg_list[I]...`: one element access per index, left to
right.  `std::vector::operator[]` outside the bounds is undefined behaviour,
here `none`. -/
def expand_arg_list (arg_list : List argument) : List Nat → Option (List argument)
  | [] => some []
  | i :: I =>
      match arg_list[i]? with
      | none => none
      | some a =>
          match expand_arg_list arg_list I with
          | none => none
          | some rest => some (a :: rest)

/-- The static member `invoke_variadic_impl(arg_list, index_sequence<I...>)`;
`none` stands for undefined behaviour. -/
def constructor_wrapper.invoke_variadic_impl (w : constructor_wrapper)
    (arg_list : List argument) (I : List Nat) : Option variant :=
  if arg_list.length = I.length then
    match expand_arg_list arg_list I with
    | none => none
    | some args => some (w.invoker_class_invoke args)
  else
    some variant.empty

/-- The member `invoke_variadic(arg_list)`. -/
def constructor_wrapper.invoke_variadic (w : constructor_wrapper)
    (arg_list : List argument) : Option variant :=
  w.invoke_variadic_impl arg_list (make_index_sequence w.Ctor_Args.length)

/-- The element accesses of `invoke_variadic_impl` next to its result: the
indices at which `arg_list[I]` is evaluated, then the returned value. -/
def constructor_wrapper.invoke_variadic_impl_traced (w : constructor_wrapper)
    (arg_list : List argument) (I : List Nat) : List Nat × Option variant :=
  if arg_list.length = I.length then
    (I, match expand_arg_list arg_list I with
        | none => none
        | some args => some (w.invoker_class_invoke args))
  else
    ([], some variant.empty)

/-- The members `get_parameter_types_impl(std::false_type)` and
`get_parameter_types_impl(std::true_type)`. -/
def constructor_wrapper.get_parameter_types_impl (w : constructor_wrapper)
    (type_get : CppType → type) : Bool → List type
  | false => []
  | true => w.Ctor_Args.map type_get

/-- The member `get_parameter_types()`. -/
def constructor_wrapper.get_parameter_types (w : constructor_wrapper)
    (type_get : CppType → type) : List type :=
  w.get_parameter_types_impl type_get (w.Ctor_Args.length != 0)

/-- The members `get_is_reference_impl(std::true_type)` and
`get_is_reference_impl(std::false_type)`. -/
def constructor_wrapper.get_is_reference_impl (w : constructor_wrapper) : Bool → List Bool
  | true => w.Ctor_Args.map is_reference
  | false => []

/-- The members `get_is_const_impl(std::true_type)` and
`get_is_const_impl(std::false_type)`. -/
def constructor_wrapper.get_is_const_impl (w : constructor_wrapper) : Bool → List Bool
  | true => w.Ctor_Args.map (fun T => is_const (remove_reference_t T))
  | false => []

/-- The member `get_is_reference()`. -/
def constructor_wrapper.get_is_reference (w : constructor_wrapper) : List Bool :=
  w.get_is_reference_impl (w.Ctor_Args.length != 0)

/-- The member `get_is_const()`. -/
def constructor_wrapper.get_is_const (w : constructor_wrapper) : List Bool :=
  w.get_is_const_impl (w.Ctor_Args.length != 0)

/-- The trait `are_args_in_valid_range<type_list<Ctor_Args...>, type_list<Args...>>`. -/
def are_args_in_valid_range (Ctor_Args Args : List CppType) : Bool :=
  Ctor_Args.length == Args.length

/-- The class type `argument`, which every fixed-arity overload of `invoke`
deduces for each element of `TArgs`; the embedding gives it the class id 0. -/
def argument_class : CppType := .object (.class_ 0) false false .none

/-- The two overloads of the static member `invoke_impl(const TArgs&... args)`;
the `enable_if_t` conditions select one of them. -/
def constructor_wrapper.invoke_impl (w : constructor_wrapper) (args : List argument) : variant :=
  if are_args_in_valid_range w.Ctor_Args (args.map (fun _ => argument_class)) then
    w.invoker_class_invoke args
  else
    variant.empty

/-- The seven fixed-arity overloads of the member `invoke`, selected by the
number of arguments; no overload takes more than six, which is `none`. -/
def constructor_wrapper.invoke (w : constructor_wrapper) : List argument → Option variant
  | [] => some (w.invoke_impl [])
  | [arg1] => some (w.invoke_impl [arg1])
  | [arg1, arg2] => some (w.invoke_impl [arg1, arg2])
  | [arg1, arg2, arg3] => some (w.invoke_impl [arg1, arg2, arg3])
  | [arg1, arg2, arg3, arg4] => some (w.invoke_impl [arg1, arg2, arg3, arg4])
  | [arg1, arg2, arg3, arg4, arg5] => some (w.invoke_impl [arg1, arg2, arg3, arg4, arg5])
  | [arg1, arg2, arg3, arg4, arg5, arg6] =>
      some (w.invoke_impl [arg1, arg2, arg3, arg4, arg5, arg6])
  | _ => none

/-- Modelled from the spec: a constructor-like callable, "a literal constructor
or a user-supplied factory function", of which the sources hold no instance: its
parameter types, the type of what it yields, and its effect on the values
extracted from the arguments. -/
structure callable where
  params : List CppType
  result : CppType
  effect : List Nat → Nat

/-- The specialisation `constructor_wrapper<ClassType, return_func, Policy,
default_args<>, F>`.  The static functions `invoke` and `invoke_variadic` of
`method_accessor<F, Policy>` (`method_accessor.h`) are not among the sources and
are fields. -/
structure constructor_wrapper_return_func where
  F : CppType
  m_creator_func : callable
  method_accessor_invoke : callable → instance_ → List argument → variant
  method_accessor_invoke_variadic : callable → instance_ → List argument → variant

/-- The seven fixed-arity overloads of the member `invoke` of the factory
wrapper, selected by the number of arguments; no overload takes more than six,
which is `none`. -/
def constructor_wrapper_return_func.invoke (f : constructor_wrapper_return_func) :
    List argument → Option variant
  | [] => some (f.method_accessor_invoke f.m_creator_func instance_.empty [])
  | [arg1] => some (f.method_accessor_invoke f.m_creator_func instance_.empty [arg1])
  | [arg1, arg2] => some (f.method_accessor_invoke f.m_creator_func instance_.empty [arg1, arg2])
  | [arg1, arg2, arg3] =>
      some (f.method_accessor_invoke f.m_creator_func instance_.empty [arg1, arg2, arg3])
  | [arg1, arg2, arg3, arg4] =>
      some (f.method_accessor_invoke f.m_creator_func instance_.empty [arg1, arg2, arg3, arg4])
  | [arg1, arg2, arg3, arg4, arg5] =>
      some (f.method_accessor_invoke f.m_creator_func instance_.empty
        [arg1, arg2, arg3, arg4, arg5])
  | [arg1, arg2, arg3, arg4, arg5, arg6] =>
      some (f.method_accessor_invoke f.m_creator_func instance_.empty
        [arg1, arg2, arg3, arg4, arg5, arg6])
  | _ => none

/-- The member `invoke_variadic(args)` of the factory wrapper. -/
def constructor_wrapper_return_func.invoke_variadic (f : constructor_wrapper_return_func)
    (args : List argument) : variant :=
  f.method_accessor_invoke_variadic f.m_creator_func instance_.empty args

/-- Modelled from the spec: an invocation policy of `policy.h`, which is not
among the sources: "an external tag controlling how a constructed/returned value
is wrapped (by value, by pointer, etc.), opaque to this core". -/
structure policy where
  tag : Nat
  deriving DecidableEq

/-- Modelled from the spec: what the constructor invoker and the method accessor
have in common, none of it among the sources.  `extract` is the typed extraction
of the call arguments for a parameter list (an argument "carries one incoming
call argument plus enough type information for the underlying invoker to attempt
a typed extraction"), `none` on an arity or type mismatch; `wrap` is the
type-erased value a policy makes of "a constructed/returned value" of a type. -/
structure invocation_machinery where
  extract : List CppType → List argument → Option (List Nat)
  wrap : policy → CppType → Nat → variant

/-- Modelled from the spec: `method_accessor<F, Policy>::invoke` of
`method_accessor.h`, which is not among the sources: the "invocation of a stored
factory callable via the generic method-call machinery, producing a type-erased
result", "parameterized by the same invocation policy" and "empty on arity/type
mismatch"; a factory call has no bound instance, the placeholder is not used. -/
def method_accessor_invoke (m : invocation_machinery) (Policy : policy) (func : callable)
    (_obj : instance_) (args : List argument) : variant :=
  match m.extract func.params args with
  | some values => m.wrap Policy func.result (func.effect values)
  | none => variant.empty

/-- Modelled from the spec: `method_accessor<F, Policy>::invoke_variadic` of
`method_accessor.h`, which is not among the sources: the variadic one of the
"fixed-arity and variadic invoke operations" of the method accessor, the same
invocation on an ordered sequence of arguments. -/
def method_accessor_invoke_variadic (m : invocation_machinery) (Policy : policy)
    (func : callable) (obj : instance_) (args : List argument) : variant :=
  method_accessor_invoke m Policy func obj args

/-- A bundle type is never changed by resolution into something else than
itself or the empty bundle. -/
theorem find_default_args_impl_cases (S : List CppType) (D : CppType) :
    find_default_args_impl S D = D ∨ find_default_args_impl S D = default_args [] := by
  induction S with
  | nil => right; rfl
  | cons T TArgs ih =>
    unfold find_default_args_impl
    simp only
    split
    · left; rfl
    · exact ih

/-- The recursion of `find_default_args_impl` accepts a non-empty bundle exactly
when its types are a suffix of the decayed signature. -/
theorem find_default_args_impl_eq (S B : List CppType) (hB : B ≠ []) :
    find_default_args_impl S (default_args B) =
      if B <:+ S.map decay_type then default_args B else default_args [] := by
  induction S with
  | nil =>
    have : ¬ B <:+ [] := by
      intro h
      exact hB (List.eq_nil_of_suffix_nil h)
    simp [find_default_args_impl, this]
  | cons T TArgs ih =>
    unfold find_default_args_impl
    simp only
    by_cases h : default_args (decay_type T :: TArgs.map decay_type) = default_args B
    · have hB2 : decay_type T :: TArgs.map decay_type = B := by
        unfold default_args at h
        injection h
      have : B <:+ (T :: TArgs).map decay_type := by
        rw [List.map_cons, hB2]
      rw [if_pos h, if_pos this]
    · rw [if_neg h, ih]
      have hne : B ≠ decay_type T :: TArgs.map decay_type := by
        intro e
        exact h (by rw [e])
      have : B <:+ (T :: TArgs).map decay_type ↔ B <:+ TArgs.map decay_type := by
        rw [List.map_cons, List.suffix_cons_iff]
        constructor
        · rintro (e | e)
          · exact absurd e hne
          · exact e
        · intro e
          exact Or.inr e
      simp only [this]

/-- A target list that is not one single function type is handed to
`find_default_args_impl` unchanged. -/
theorem find_default_args_t_of_parameters (D : CppType) (S : List CppType)
    (hS : ∀ F, S = [F] → is_function F = false) :
    find_default_args_t D S = find_default_args_impl S D := by
  unfold find_default_args_t find_default_args_helper
  split
  · rename_i T
    have : is_function T = false := hS T rfl
    simp [this]
  · rfl

/-- C2: against the signature `(bool, int, double)` the bundles
`(bool, int, double)`, `(int, double)` and `(double)` are returned themselves and
the bundle `(int)` gives `default_args<>`. -/
theorem find_default_args_t_examples :
    find_default_args_t (default_args [bool_, int_, double_]) [bool_, int_, double_]
      = default_args [bool_, int_, double_] ∧
    find_default_args_t (default_args [int_, double_]) [bool_, int_, double_]
      = default_args [int_, double_] ∧
    find_default_args_t (default_args [double_]) [bool_, int_, double_]
      = default_args [double_] ∧
    find_default_args_t (default_args [int_]) [bool_, int_, double_] = default_args [] := by
  decide

/-! ## The variadic invocation path -/

/-- Expanding the indices `start, ..., start + n - 1` over a list that has them
all reads that stretch of the list. -/
theorem expand_arg_list_range (pre L : List argument) :
    expand_arg_list (pre ++ L) (List.range' pre.length L.length) = some L := by
  induction L generalizing pre with
  | nil => rfl
  | cons a L ih =>
    have h1 : (pre ++ a :: L)[pre.length]? = some a := by
      rw [List.getElem?_append_right (Nat.le_refl _), Nat.sub_self]
      exact List.getElem?_cons_zero
    have h2 : pre ++ a :: L = (pre ++ [a]) ++ L := by simp
    have h3 := ih (pre ++ [a])
    rw [List.length_append, List.length_singleton, ← h2] at h3
    simp only [List.length_cons, List.range'_succ, expand_arg_list, h1, h3]

/-- C3: the variadic path of a direct-construction wrapper returns the
invoker applied to the arguments in order when their number is the number `N`
of constructor parameters, and the empty variant for every other number; it
never reads outside the list. -/
theorem invoke_variadic_arity (w : constructor_wrapper) (L : List argument) :
    w.invoke_variadic L =
      some (if L.length = w.Ctor_Args.length then w.invoker_class_invoke L
            else variant.empty) := by
  unfold constructor_wrapper.invoke_variadic constructor_wrapper.invoke_variadic_impl
    make_index_sequence
  rw [List.length_range]
  by_cases h : L.length = w.Ctor_Args.length
  · have := expand_arg_list_range [] L
    simp only [List.nil_append, List.length_nil] at this
    rw [if_pos h, if_pos h, ← h, List.range_eq_range', this]
  · rw [if_neg h, if_neg h]

/-! ## Locating the bundle in a registration pack -/

/-- A type accepted by `is_def_type` is an unqualified `default_args<T...>`. -/
theorem is_def_type_iff (t : CppType) : is_def_type t = true ↔ ∃ T, t = default_args T := by
  constructor
  · intro h
    cases t with
    | default_args T c v r =>
      cases c <;> cases v <;> cases r <;> simp [is_def_type] at h
      exact ⟨T, rfl⟩
    | _ => simp [is_def_type] at h
  · rintro ⟨T, rfl⟩
    rfl

/-- A pack without bundle-shaped element resolves to the empty marker. -/
theorem get_default_args_impl_none (P : List CppType)
    (h : ∀ x ∈ P, is_def_type x = false) : get_default_args_impl P = default_args [] := by
  induction P with
  | nil => rfl
  | cons T TArgs ih =>
    have hT : is_def_type T = false := h T (by simp)
    have hrest : ∀ x ∈ TArgs, is_def_type x = false := fun x hx => h x (by simp [hx])
    simp [get_default_args_impl, hT, ih hrest]

/-- The scan stops at the first bundle-shaped element. -/
theorem get_default_args_impl_first (pre : List CppType) (t : CppType) (post : List CppType)
    (hpre : ∀ x ∈ pre, is_def_type x = false) (ht : is_def_type t = true) :
    get_default_args_impl (pre ++ t :: post) = t := by
  induction pre with
  | nil => simp [get_default_args_impl, ht]
  | cons T TArgs ih =>
    have hT : is_def_type T = false := hpre T (by simp)
    have hrest : ∀ x ∈ TArgs, is_def_type x = false := fun x hx => hpre x (by simp [hx])
    simp [get_default_args_impl, hT, ih hrest]

/-- Every list either has no element with a property or splits at the first
element that has it. -/
theorem first_split {α : Type} (p : α → Bool) (l : List α) :
    (∀ x ∈ l, p x = false) ∨
      ∃ pre e post, l = pre ++ e :: post ∧ (∀ x ∈ pre, p x = false) ∧ p e = true := by
  induction l with
  | nil => left; simp
  | cons a l ih =>
    by_cases ha : p a = true
    · right
      exact ⟨[], a, l, rfl, by simp, ha⟩
    · have ha2 : p a = false := by simpa using ha
      rcases ih with h | ⟨pre, e, post, rfl, hpre, he⟩
      · left
        intro x hx
        rcases List.mem_cons.mp hx with rfl | hx
        · exact ha2
        · exact h x hx
      · right
        refine ⟨a :: pre, e, post, rfl, ?_, he⟩
        intro x hx
        rcases List.mem_cons.mp hx with rfl | hx
        · exact ha2
        · exact hpre x hx

/-- Whatever the target list, resolution gives the bundle or the empty bundle. -/
theorem find_default_args_t_cases (D : CppType) (S : List CppType) :
    find_default_args_t D S = D ∨ find_default_args_t D S = default_args [] := by
  unfold find_default_args_t find_default_args_helper
  split
  · split
    · exact find_default_args_impl_cases _ _
    · exact find_default_args_impl_cases _ _
  · exact find_default_args_impl_cases _ _

/-- C4: for a pack without an element of the shape `default_args<T...>`,
`get_default_args` returns the empty bundle `default_args<>()`, whatever the
target signature and the other arguments. -/
theorem get_default_args_no_bundle (TArgs : List CppType) (arg : List typed_value)
    (h : ∀ a ∈ arg, is_def_type a.type = false) :
    get_default_args TArgs arg =
      ⟨default_args [], Value.default_constructed (default_args [])⟩ := by
  have h1 : get_default_args_t (arg.map (fun a => a.type)) = default_args [] := by
    apply get_default_args_impl_none
    intro x hx
    rcases List.mem_map.mp hx with ⟨a, ha, rfl⟩
    exact h a ha
  have h2 : find_default_args_t (default_args []) TArgs = default_args [] := by
    rcases find_default_args_t_cases (default_args []) TArgs with e | e <;> exact e
  simp only [get_default_args, h1, h2, if_true]

/-- Witness of C4 at the signature `(int)` and a pack of an `int` and a
reference to a bundle. -/
theorem get_default_args_no_bundle_witness :
    get_default_args [int_]
        [⟨int_, Value.supplied 7⟩, ⟨lvalue_reference (default_args [int_]), Value.supplied 8⟩] =
      ⟨default_args [], Value.default_constructed (default_args [])⟩ :=
  get_default_args_no_bundle [int_]
    [⟨int_, Value.supplied 7⟩, ⟨lvalue_reference (default_args [int_]), Value.supplied 8⟩]
    (by decide)

/-- C6: `get_default_args_t` returns the first element of the shape
`default_args<T...>`, whatever precedes it without that shape and whatever
follows it, and `default_args<>` when no element has the shape. -/
theorem get_default_args_t_first (P : List CppType) :
    (∀ pre t post, P = pre ++ t :: post → (∀ x ∈ pre, is_def_type x = false) →
        is_def_type t = true → get_default_args_t P = t) ∧
    ((∀ x ∈ P, is_def_type x = false) → get_default_args_t P = default_args []) := by
  constructor
  · rintro pre t post rfl hpre ht
    exact get_default_args_impl_first pre t post hpre ht
  · exact get_default_args_impl_none P

/-- Witness of C6: a pack with two bundles after an `int`, and a pack without
bundle. -/
theorem get_default_args_t_first_witness :
    get_default_args_t [int_, default_args [char_], default_args [int_]] = default_args [char_] ∧
    get_default_args_t [int_, lvalue_reference (default_args [int_])] = default_args [] :=
  ⟨(get_default_args_t_first [int_, default_args [char_], default_args [int_]]).1
      [int_] (default_args [char_]) [default_args [int_]] rfl (by decide) (by decide),
   (get_default_args_t_first [int_, lvalue_reference (default_args [int_])]).2 (by decide)⟩

/-- The extraction starts with the value of the first pack element of the
requested type. -/
theorem forward_to_vector_first (D : CppType) (pre : List typed_value) (e : typed_value)
    (post : List typed_value) (hpre : ∀ x ∈ pre, raw_type_t x.type ≠ D)
    (he : raw_type_t e.type = D) :
    forward_to_vector D (pre ++ e :: post) = e.value :: forward_to_vector D post := by
  unfold forward_to_vector
  have h1 : pre.filter (fun a => raw_type_t a.type = D) = [] := by
    rw [List.filter_eq_nil_iff]
    intro a ha
    simpa using hpre a ha
  rw [List.filter_append, h1, List.nil_append, List.filter_cons_of_pos (by simpa using he)]
  rfl

/-- C5: when compile-time resolution yields a non-empty bundle type `D`, the
pack holds an element of exactly that type, the extraction is not empty, and
`get_default_args` returns the value of the first pack element of type `D`; the
fallback `D()` is not reached. -/
theorem get_default_args_returns_supplied (TArgs : List CppType) (arg : List typed_value)
    (D : CppType)
    (hD : D = find_default_args_t (get_default_args_t (arg.map (fun a => a.type))) TArgs)
    (hne : D ≠ default_args []) :
    (∃ a ∈ arg, a.type = D) ∧ forward_to_vector D arg ≠ [] ∧
    ∃ pre e post, arg = pre ++ e :: post ∧ (∀ x ∈ pre, raw_type_t x.type ≠ D) ∧
      raw_type_t e.type = D ∧ get_default_args TArgs arg = ⟨D, e.value⟩ := by
  have hG : D = get_default_args_t (arg.map (fun a => a.type)) := by
    rcases find_default_args_t_cases (get_default_args_t (arg.map (fun a => a.type))) TArgs
      with e | e
    · rw [hD, e]
    · exact absurd (hD.trans e) hne
  have hmem : (∃ a ∈ arg, a.type = D) ∧ is_def_type D = true := by
    rcases first_split is_def_type (arg.map (fun a => a.type)) with h | ⟨p, t, q, hsplit, hp, ht⟩
    · exact absurd (hG.trans (get_default_args_impl_none _ h)) hne
    · have ht2 : D = t := by
        rw [hG, hsplit]
        exact get_default_args_impl_first p t q hp ht
      have : t ∈ arg.map (fun a => a.type) := by
        rw [hsplit]
        simp
      rcases List.mem_map.mp this with ⟨a, ha, hat⟩
      exact ⟨⟨a, ha, by rw [hat, ht2]⟩, by rw [ht2]; exact ht⟩
  rcases hmem with ⟨⟨a, ha, hat⟩, hdef⟩
  have hraw : raw_type_t D = D := by
    rcases (is_def_type_iff D).mp hdef with ⟨T, rfl⟩
    rfl
  rcases first_split (fun x : typed_value => decide (raw_type_t x.type = D)) arg
    with h | ⟨pre, e, post, hsplit, hpre, he⟩
  · have := h a ha
    rw [hat, hraw] at this
    simp at this
  · have hpre2 : ∀ x ∈ pre, raw_type_t x.type ≠ D := by
      intro x hx
      simpa using hpre x hx
    have he2 : raw_type_t e.type = D := by simpa using he
    have hfwd := forward_to_vector_first D pre e post hpre2 he2
    rw [← hsplit] at hfwd
    refine ⟨⟨a, ha, hat⟩, by rw [hfwd]; simp, pre, e, post, hsplit, hpre2, he2, ?_⟩
    unfold get_default_args
    simp only [← hD, if_neg hne, hfwd]

/-- Witness of C5 at the signature `(bool, int)` and a pack of an `int`, the
bundle `default_args<int>` and a second bundle of the same type. -/
theorem get_default_args_returns_supplied_witness :
    (∃ a ∈ [(⟨int_, Value.supplied 1⟩ : typed_value), ⟨default_args [int_], Value.supplied 2⟩,
        ⟨default_args [int_], Value.supplied 3⟩], a.type = default_args [int_]) ∧
    forward_to_vector (default_args [int_])
      [⟨int_, Value.supplied 1⟩, ⟨default_args [int_], Value.supplied 2⟩,
        ⟨default_args [int_], Value.supplied 3⟩] ≠ [] ∧
    ∃ pre e post,
      [(⟨int_, Value.supplied 1⟩ : typed_value), ⟨default_args [int_], Value.supplied 2⟩,
        ⟨default_args [int_], Value.supplied 3⟩] = pre ++ e :: post ∧
      (∀ x ∈ pre, raw_type_t x.type ≠ default_args [int_]) ∧
      raw_type_t e.type = default_args [int_] ∧
      get_default_args [bool_, int_]
        [⟨int_, Value.supplied 1⟩, ⟨default_args [int_], Value.supplied 2⟩,
          ⟨default_args [int_], Value.supplied 3⟩] = ⟨default_args [int_], e.value⟩ :=
  get_default_args_returns_supplied [bool_, int_]
    [⟨int_, Value.supplied 1⟩, ⟨default_args [int_], Value.supplied 2⟩,
      ⟨default_args [int_], Value.supplied 3⟩]
    (default_args [int_]) (by decide) (by decide)

/-! ## Qualifiers on the bundle side -/

/-- Stripping twice is stripping once. -/
theorem decay_type_idem (t : CppType) : decay_type (decay_type t) = decay_type t := by
  cases t <;> rfl

/-- An accepted non-empty bundle consists of decayed types, so stripping
changes none of its element types. -/
theorem find_default_args_t_accepts_decayed (S B : List CppType) (hB : B ≠ [])
    (h : find_default_args_t (default_args B) S = default_args B) :
    B.map decay_type = B := by
  have key : ∀ S2 : List CppType,
      find_default_args_impl S2 (default_args B) = default_args B → B.map decay_type = B := by
    intro S2 h2
    rw [find_default_args_impl_eq S2 B hB] at h2
    by_cases hs : B <:+ S2.map decay_type
    · have h3 := List.suffix_iff_eq_drop.mp hs
      rw [← List.map_drop] at h3
      rw [h3, List.map_map]
      apply List.map_congr_left
      intro t _
      exact decay_type_idem t
    · rw [if_neg hs] at h2
      unfold default_args at h2
      injection h2 with h4
      exact absurd h4.symm hB
  unfold find_default_args_t find_default_args_helper at h
  split at h
  · split at h
    · exact key _ h
    · exact key _ h
  · exact key _ h

/-- C7, as the claim states it, fails: the bundles `(const int)` and `(int)` have
equal length and equal element types after stripping reference and const, but
against the signature `(int)` only `(int)` is accepted. -/
theorem bundle_qualifiers_counterexample :
    [const_int].length = [int_].length ∧
    [const_int].map (fun t => remove_const_t (remove_reference_t t))
      = [int_].map (fun t => remove_const_t (remove_reference_t t)) ∧
    ¬ (find_default_args_t (default_args [const_int]) [int_] = default_args [const_int] ↔
       find_default_args_t (default_args [int_]) [int_] = default_args [int_]) := by
  decide

/-- C7, amended: two bundles of equal length whose element types are equal after
stripping reference and cv-qualifiers, and of which either both or neither carry
such a qualifier on some element type, are accepted against the same signatures:
only the types of the signature are stripped before the comparison. -/
theorem find_default_args_t_bundle_qualifiers (S B1 B2 : List CppType)
    (hlen : B1.length = B2.length)
    (heq : B1.map decay_type = B2.map decay_type)
    (hq : B1.map decay_type = B1 ↔ B2.map decay_type = B2) :
    (find_default_args_t (default_args B1) S = default_args B1 ↔
      find_default_args_t (default_args B2) S = default_args B2) := by
  have hnil : B1 = [] ↔ B2 = [] := by
    rw [← List.length_eq_zero, ← List.length_eq_zero (l := B2), hlen]
  by_cases h1 : B1 = []
  · have h2 : B2 = [] := hnil.mp h1
    rw [h1, h2]
  · have h2 : B2 ≠ [] := fun e => h1 (hnil.mpr e)
    constructor
    · intro h
      have hd := find_default_args_t_accepts_decayed S B1 h1 h
      have : B1 = B2 := by rw [← hd, heq, hq.mp hd]
      rw [← this]
      exact h
    · intro h
      have hd := find_default_args_t_accepts_decayed S B2 h2 h
      have : B1 = B2 := by rw [← hd, ← heq, hq.mpr hd]
      rw [this]
      exact h

/-- Witness of the amended C7 at the signature `(int, double)` and the bundles
`(const int, double)` and `(int&, double)`, both with a qualified element. -/
theorem find_default_args_t_bundle_qualifiers_witness :
    (find_default_args_t (default_args [const_int, double_]) [int_, double_]
        = default_args [const_int, double_] ↔
      find_default_args_t (default_args [lvalue_reference int_, double_]) [int_, double_]
        = default_args [lvalue_reference int_, double_]) :=
  find_default_args_t_bundle_qualifiers [int_, double_] [const_int, double_]
    [lvalue_reference int_, double_] (by decide) (by decide) (by decide)

/-! ## The predicates on a registration pack -/

/-- Two bundle types are the same type exactly when their type lists are. -/
theorem default_args_inj (T1 T2 : List CppType) : default_args T1 = default_args T2 ↔ T1 = T2 := by
  constructor
  · intro h
    unfold default_args at h
    injection h
  · rintro rfl
    rfl

/-- A suffix of the decayed signature is the decayed form of a trailing run. -/
theorem suffix_iff_trailing_run (A T : List CppType) :
    T <:+ A.map decay_type ↔ ∃ k, (A.drop k).map decay_type = T := by
  constructor
  · intro h
    have := List.suffix_iff_eq_drop.mp h
    rw [← List.map_drop] at this
    exact ⟨_, this.symm⟩
  · rintro ⟨k, rfl⟩
    rw [List.map_drop]
    exact List.drop_suffix _ _

/-- C8, as the claim states it, fails: the pack `(default_args<char>,
default_args<int>)` contains the bundle `default_args<int>`, usable for the
signature `(int)`, but `has_default_types` is false, because only the first
bundle of the pack is looked at. -/
theorem has_default_types_counterexample :
    ¬ (has_default_types [int_] [default_args [char_], default_args [int_]] = true ↔
        ∃ T, default_args T ∈ [default_args [char_], default_args [int_]] ∧ T ≠ [] ∧
          ∃ k, ([int_].drop k).map decay_type = T) := by
  intro h
  have hf : has_default_types [int_] [default_args [char_], default_args [int_]] = false := by
    decide
  have ht := h.mpr ⟨[int_], by decide, by decide, 0, by decide⟩
  rw [hf] at ht
  exact Bool.false_ne_true ht

/-- C8, amended: for an accessor signature `A` given as its list of parameter
types (not as one single function type), `has_default_types<A, P>` is true
exactly when the first element of `P` of the shape `default_args<T...>` has a
non-empty type list that equals the decayed types of a trailing run of `A`. -/
theorem has_default_types_iff (A P : List CppType)
    (hA : ∀ F, A = [F] → is_function F = false) :
    has_default_types A P = true ↔
      ∃ pre T post, P = pre ++ default_args T :: post ∧
        (∀ x ∈ pre, is_def_type x = false) ∧ T ≠ [] ∧
        ∃ k, (A.drop k).map decay_type = T := by
  unfold has_default_types get_default_args_t
  rw [find_default_args_t_of_parameters _ _ hA]
  constructor
  · intro h
    rcases first_split is_def_type P with hn | ⟨pre, t, post, rfl, hpre, ht⟩
    · rw [get_default_args_impl_none P hn] at h
      rcases find_default_args_impl_cases A (default_args []) with e | e <;>
        simp [e] at h
    · rcases (is_def_type_iff t).mp ht with ⟨T, rfl⟩
      rw [get_default_args_impl_first pre _ post hpre ht] at h
      have hT : T ≠ [] := by
        rintro rfl
        rcases find_default_args_impl_cases A (default_args []) with e | e <;>
          simp [e] at h
      refine ⟨pre, T, post, rfl, hpre, hT, ?_⟩
      rw [find_default_args_impl_eq A T hT] at h
      by_cases hs : T <:+ A.map decay_type
      · exact (suffix_iff_trailing_run A T).mp hs
      · simp [hs] at h
  · rintro ⟨pre, T, post, rfl, hpre, hT, hk⟩
    rw [get_default_args_impl_first pre _ post hpre ((is_def_type_iff _).mpr ⟨T, rfl⟩),
      find_default_args_impl_eq A T hT, if_pos ((suffix_iff_trailing_run A T).mpr hk)]
    have : default_args T ≠ default_args [] := fun e => hT ((default_args_inj _ _).mp e)
    simp [this]

/-- Witness of the amended C8 at the signature `(bool, const int&)` and the pack
`(char, default_args<int>)`. -/
theorem has_default_types_iff_witness :
    has_default_types [bool_, lvalue_reference const_int] [char_, default_args [int_]] = true ↔
      ∃ pre T post, [char_, default_args [int_]] = pre ++ default_args T :: post ∧
        (∀ x ∈ pre, is_def_type x = false) ∧ T ≠ [] ∧
        ∃ k, ([bool_, lvalue_reference const_int].drop k).map decay_type = T :=
  has_default_types_iff [bool_, lvalue_reference const_int] [char_, default_args [int_]]
    (fun _ h => by cases h)

/-- C9, as the claim states it, fails: the pack `(default_args<>)` contains an
element of the shape `default_args<T...>`, but `has_default_args` is false,
because the empty bundle is the marker for "no bundle". -/
theorem has_default_args_counterexample :
    ¬ (has_default_args [default_args []] = true ↔
        ∃ t ∈ [default_args []], is_def_type t = true) := by
  decide

/-- C9, amended: `has_default_args` is true exactly when the pack contains an
element of the shape `default_args<T...>` and the first such element has a
non-empty type list. -/
theorem has_default_args_first_non_empty (P : List CppType) :
    has_default_args P = true ↔
      ∃ pre T post, P = pre ++ default_args T :: post ∧
        (∀ x ∈ pre, is_def_type x = false) ∧ T ≠ [] := by
  unfold has_default_args get_default_args_t
  constructor
  · intro h
    rcases first_split is_def_type P with hn | ⟨pre, t, post, rfl, hpre, ht⟩
    · rw [get_default_args_impl_none P hn] at h
      simp at h
    · rcases (is_def_type_iff t).mp ht with ⟨T, rfl⟩
      refine ⟨pre, T, post, rfl, hpre, ?_⟩
      rintro rfl
      rw [get_default_args_impl_first pre _ post hpre ht] at h
      simp at h
  · rintro ⟨pre, T, post, rfl, hpre, hT⟩
    rw [get_default_args_impl_first pre _ post hpre ((is_def_type_iff _).mpr ⟨T, rfl⟩)]
    have : default_args T ≠ default_args [] := fun e => hT ((default_args_inj _ _).mp e)
    simp [this]

/-- The recursion of `count_default_args_impl` counts the bundle-shaped types. -/
theorem count_default_args_impl_eq (P : List CppType) :
    count_default_args_impl P = P.countP is_def_type := by
  induction P with
  | nil => rfl
  | cons T TArgs ih =>
    unfold count_default_args_impl
    by_cases h : is_def_type T = true
    · rw [if_pos h, ih, List.countP_cons_of_pos _ _ h]
    · rw [if_neg h, ih, List.countP_cons_of_neg _ _ h]

/-- C10: `count_default_args::value` is the number of pack elements whose type,
after stripping reference and cv-qualifiers, has the shape `default_args<T...>`;
it is 0 for the empty pack and never exceeds the number of pack elements. -/
theorem count_default_args_eq (P : List CppType) :
    count_default_args P
        = P.countP (fun t => is_def_type (remove_cv_t (remove_reference_t t))) ∧
    count_default_args [] = 0 ∧
    count_default_args P ≤ P.length := by
  have h1 : count_default_args P
      = P.countP (fun t => is_def_type (remove_cv_t (remove_reference_t t))) := by
    unfold count_default_args
    rw [count_default_args_impl_eq, List.countP_map]
    rfl
  refine ⟨h1, rfl, ?_⟩
  rw [h1]
  exact List.countP_le_length _

/-! ## Metadata of the direct-construction wrapper -/

/-- The short-circuit for the empty parameter list changes nothing: the three
metadata queries map over the parameter list. -/
theorem constructor_wrapper_metadata_eq (w : constructor_wrapper) (type_get : CppType → type) :
    w.get_parameter_types type_get = w.Ctor_Args.map type_get ∧
    w.get_is_reference = w.Ctor_Args.map is_reference ∧
    w.get_is_const = w.Ctor_Args.map (fun T => is_const (remove_reference_t T)) := by
  unfold constructor_wrapper.get_parameter_types constructor_wrapper.get_is_reference
    constructor_wrapper.get_is_const
  cases h : w.Ctor_Args with
  | nil =>
    have hb : (([] : List CppType).length != 0) = false := rfl
    rw [hb]
    exact ⟨rfl, rfl, rfl⟩
  | cons T TArgs =>
    have hb : ((T :: TArgs).length != 0) = true := rfl
    rw [hb]
    unfold constructor_wrapper.get_parameter_types_impl
      constructor_wrapper.get_is_reference_impl constructor_wrapper.get_is_const_impl
    rw [h]
    exact ⟨rfl, rfl, rfl⟩

/-- C11: for a direct-construction wrapper with an empty constructor parameter
list, `get_parameter_types()`, `get_is_reference()` and `get_is_const()` each
return the empty sequence. -/
theorem constructor_wrapper_empty_metadata (w : constructor_wrapper)
    (type_get : CppType → type) (h : w.Ctor_Args = []) :
    w.get_parameter_types type_get = [] ∧ w.get_is_reference = [] ∧ w.get_is_const = [] := by
  unfold constructor_wrapper.get_parameter_types constructor_wrapper.get_is_reference
    constructor_wrapper.get_is_const
  rw [h]
  exact ⟨rfl, rfl, rfl⟩

/-- Witness of C11 at a wrapper of a constructor without parameters. -/
theorem constructor_wrapper_empty_metadata_witness :
    (⟨[], fun _ => variant.empty, int_⟩ : constructor_wrapper).get_parameter_types
        (fun _ => ⟨0⟩) = [] ∧
    (⟨[], fun _ => variant.empty, int_⟩ : constructor_wrapper).get_is_reference = [] ∧
    (⟨[], fun _ => variant.empty, int_⟩ : constructor_wrapper).get_is_const = [] :=
  constructor_wrapper_empty_metadata ⟨[], fun _ => variant.empty, int_⟩ (fun _ => ⟨0⟩) rfl

/-- C16: for a direct-construction wrapper with parameter list `P` the three
metadata sequences have the length of `P`; at each index `get_is_reference()`
is true exactly when the parameter is a reference type and `get_is_const()` is
true exactly when the parameter with its reference removed is const-qualified;
a parameter `const int&` reports reference and const. -/
theorem constructor_wrapper_parameter_metadata (w : constructor_wrapper)
    (type_get : CppType → type) :
    (w.get_parameter_types type_get).length = w.Ctor_Args.length ∧
    w.get_is_reference.length = w.Ctor_Args.length ∧
    w.get_is_const.length = w.Ctor_Args.length ∧
    (∀ i : Nat, w.get_is_reference[i]? =
      (w.Ctor_Args[i]?).map (fun T => decide (T.ref_kind ≠ RefKind.none))) ∧
    (∀ i : Nat, w.get_is_const[i]? =
      (w.Ctor_Args[i]?).map (fun T => is_const (T.with_ref RefKind.none))) ∧
    (∀ i : Nat, w.Ctor_Args[i]? = some (lvalue_reference const_int) →
      w.get_is_reference[i]? = some true ∧ w.get_is_const[i]? = some true) := by
  rcases constructor_wrapper_metadata_eq w type_get with ⟨h1, h2, h3⟩
  have href : ∀ T : CppType, is_reference T = decide (T.ref_kind ≠ RefKind.none) := by
    intro T
    unfold is_reference
    cases T.ref_kind <;> rfl
  rw [h1, h2, h3]
  refine ⟨by simp, by simp, by simp, ?_, ?_, ?_⟩
  · intro i
    rw [List.getElem?_map]
    cases w.Ctor_Args[i]? with
    | none => rfl
    | some T => simp [href]
  · intro i
    rw [List.getElem?_map]
    rfl
  · intro i hi
    rw [List.getElem?_map, List.getElem?_map, hi]
    exact ⟨rfl, rfl⟩

/-- Witness of C16 at a wrapper of a constructor with the parameters
`(bool, const int&)`, at index 1. -/
theorem constructor_wrapper_parameter_metadata_witness :
    (⟨[bool_, lvalue_reference const_int], fun _ => variant.empty, int_⟩ :
        constructor_wrapper).get_is_reference[1]? = some true ∧
    (⟨[bool_, lvalue_reference const_int], fun _ => variant.empty, int_⟩ :
        constructor_wrapper).get_is_const[1]? = some true :=
  (constructor_wrapper_parameter_metadata
    ⟨[bool_, lvalue_reference const_int], fun _ => variant.empty, int_⟩
    (fun _ => ⟨0⟩)).2.2.2.2.2 1 rfl

/-! ## The helper in front of the resolution -/

/-- C12: for every bundle `B` and every function type `F`, resolving `B` against
the one-element target list `<F>` is resolving it with `find_default_args_impl`
against the parameter list of `F`, and so gives the same as resolving against
the bare parameter list (which, being the parameter list of a function type, is
not itself one single function type); for every target list that is not one
single function type the result is `find_default_args_impl` of the list
unchanged; and for every target list exactly one of the three specialisations
of the helper applies, the one that gives the result. -/
theorem find_default_args_helper_normalises (B : List CppType) :
    (∀ F, is_function F = true →
      find_default_args_t (default_args B) [F]
        = find_default_args_impl (function_traits_arg_types F) (default_args B) ∧
      ((∀ G, function_traits_arg_types F = [G] → is_function G = false) →
        find_default_args_t (default_args B) [F]
          = find_default_args_t (default_args B) (function_traits_arg_types F))) ∧
    (∀ S, (∀ F, S = [F] → is_function F = false) →
      find_default_args_t (default_args B) S = find_default_args_impl S (default_args B)) ∧
    (∀ S, ∃ s : helper_specialisation,
      s.type (default_args B) S = some (find_default_args_t (default_args B) S) ∧
      ∀ s2 : helper_specialisation, (s2.type (default_args B) S).isSome = true → s2 = s) := by
  have h1 : ∀ F, is_function F = true →
      find_default_args_t (default_args B) [F]
        = find_default_args_impl (function_traits_arg_types F) (default_args B) := by
    intro F hF
    simp [find_default_args_t, find_default_args_helper, hF]
  refine ⟨?_, ?_, ?_⟩
  · intro F hF
    refine ⟨h1 F hF, ?_⟩
    intro hP
    rw [h1 F hF, find_default_args_t_of_parameters _ _ hP]
  · intro S hS
    exact find_default_args_t_of_parameters _ _ hS
  · intro S
    rcases S with _ | ⟨T, _ | ⟨T2, rest⟩⟩
    · refine ⟨.is_ctor_with_zero_or_more_arguments, rfl, ?_⟩
      intro s2 h2
      cases s2
      · simp [helper_specialisation.type] at h2
      · simp [helper_specialisation.type] at h2
      · rfl
    · by_cases hT : is_function T = true
      · refine ⟨.is_function_, ?_, ?_⟩
        · simp [helper_specialisation.type, find_default_args_t, find_default_args_helper, hT]
        · intro s2 h2
          cases s2
          · rfl
          · simp [helper_specialisation.type, hT] at h2
          · simp [helper_specialisation.type, is_not_one_argument] at h2
      · have hT2 : is_function T = false := by simpa using hT
        refine ⟨.is_ctor_with_one_argument, ?_, ?_⟩
        · simp [helper_specialisation.type, find_default_args_t, find_default_args_helper, hT2]
        · intro s2 h2
          cases s2
          · simp [helper_specialisation.type, hT2] at h2
          · rfl
          · simp [helper_specialisation.type, is_not_one_argument] at h2
    · refine ⟨.is_ctor_with_zero_or_more_arguments, ?_, ?_⟩
      · simp [helper_specialisation.type, find_default_args_t, find_default_args_helper,
          is_not_one_argument]
      · intro s2 h2
        cases s2
        · simp [helper_specialisation.type] at h2
        · simp [helper_specialisation.type] at h2
        · rfl

/-- Witness of C12 at the bundle `(int)`: the function type `bool(const int&)`
against its parameter list `(const int&)`, and the target list `(bool, int)`. -/
theorem find_default_args_helper_normalises_witness :
    find_default_args_t (default_args [int_])
        [CppType.function bool_ [lvalue_reference const_int] RefKind.none]
      = find_default_args_t (default_args [int_]) [lvalue_reference const_int] ∧
    find_default_args_t (default_args [int_]) [bool_, int_]
      = find_default_args_impl [bool_, int_] (default_args [int_]) :=
  ⟨((find_default_args_helper_normalises [int_]).1
      (CppType.function bool_ [lvalue_reference const_int] RefKind.none) rfl).2
      (fun G h => by
        have hG : G = lvalue_reference const_int := by
          simp [function_traits_arg_types] at h
          exact h.symm
        rw [hG]
        rfl),
   (find_default_args_helper_normalises [int_]).2.1 [bool_, int_] (fun _ h => by cases h)⟩

/-! ## Arity checks of the direct-construction wrapper -/

/-- The traced variadic path returns what the plain one returns and reads the
indices of the sequence exactly when the sizes agree. -/
theorem invoke_variadic_impl_traced_eq (w : constructor_wrapper) (L : List argument)
    (I : List Nat) :
    w.invoke_variadic_impl_traced L I
      = (if L.length = I.length then I else [], w.invoke_variadic_impl L I) := by
  unfold constructor_wrapper.invoke_variadic_impl_traced
    constructor_wrapper.invoke_variadic_impl
  by_cases h : L.length = I.length
  · rw [if_pos h, if_pos h, if_pos h]
  · rw [if_neg h, if_neg h, if_neg h]

/-- C14: in the variadic path the elements `arg_list[I]` are read only when the
size of the list is the compiled arity `N`, so every index read is in bounds and
the call has a defined result; for a list of any other length, the empty one
included, no element is read and the empty variant is returned. -/
theorem invoke_variadic_accesses (w : constructor_wrapper) (L : List argument) :
    (w.invoke_variadic_impl_traced L (make_index_sequence w.Ctor_Args.length)).2
      = w.invoke_variadic L ∧
    (∀ i ∈ (w.invoke_variadic_impl_traced L (make_index_sequence w.Ctor_Args.length)).1,
      L.length = w.Ctor_Args.length ∧ i < L.length) ∧
    (L.length ≠ w.Ctor_Args.length →
      (w.invoke_variadic_impl_traced L (make_index_sequence w.Ctor_Args.length)).1 = [] ∧
      w.invoke_variadic L = some variant.empty) ∧
    w.invoke_variadic L ≠ none := by
  have hres := invoke_variadic_arity w L
  have hlen : (make_index_sequence w.Ctor_Args.length).length = w.Ctor_Args.length := by
    unfold make_index_sequence
    exact List.length_range _
  rw [invoke_variadic_impl_traced_eq, hlen]
  refine ⟨rfl, ?_, ?_, by rw [hres]; simp⟩
  · intro i hi
    by_cases h : L.length = w.Ctor_Args.length
    · refine ⟨h, ?_⟩
      simp only [if_pos h, make_index_sequence] at hi
      rw [h]
      exact List.mem_range.mp hi
    · simp only [if_neg h] at hi
      simp at hi
  · intro hne
    refine ⟨by simp only [if_neg hne], ?_⟩
    rw [hres, if_neg hne]

/-- Witness of C14 at a wrapper of arity 1 and the empty argument list. -/
theorem invoke_variadic_accesses_witness :
    ((⟨[int_], fun _ => variant.holds int_ 0, int_⟩ :
        constructor_wrapper).invoke_variadic_impl_traced [] (make_index_sequence 1)).1 = [] ∧
    (⟨[int_], fun _ => variant.holds int_ 0, int_⟩ : constructor_wrapper).invoke_variadic []
      = some variant.empty :=
  (invoke_variadic_accesses ⟨[int_], fun _ => variant.holds int_ 0, int_⟩ []).2.2.1
    (by decide)

/-- Up to six arguments the overload of `invoke` for their number exists and is
`invoke_impl` on them. -/
theorem invoke_eq_invoke_impl (w : constructor_wrapper) (L : List argument)
    (hk : L.length ≤ 6) : w.invoke L = some (w.invoke_impl L) := by
  rcases L with _ | ⟨a1, _ | ⟨a2, _ | ⟨a3, _ | ⟨a4, _ | ⟨a5, _ | ⟨a6, _ | ⟨a7, rest⟩⟩⟩⟩⟩⟩⟩
  · rfl
  · rfl
  · rfl
  · rfl
  · rfl
  · rfl
  · rfl
  · simp at hk

/-- The arity check of `invoke_impl`. -/
theorem invoke_impl_eq (w : constructor_wrapper) (L : List argument) :
    w.invoke_impl L =
      if L.length = w.Ctor_Args.length then w.invoker_class_invoke L else variant.empty := by
  unfold constructor_wrapper.invoke_impl are_args_in_valid_range
  rw [List.length_map]
  by_cases h : L.length = w.Ctor_Args.length
  · simp [h]
  · have h2 : ¬ w.Ctor_Args.length = L.length := fun e => h e.symm
    simp [h, h2]

/-- C15: for a direct-construction wrapper of arity `N` and `k ≤ 6` arguments
the fixed-arity overload of `invoke` returns what `invoke_variadic` returns on
the list of the same arguments: the result of the invoker when `k = N`, the
empty variant otherwise; when `N > 6` every fixed-arity overload returns the
empty variant. -/
theorem invoke_fixed_arity_eq_variadic (w : constructor_wrapper) (L : List argument)
    (hk : L.length ≤ 6) :
    w.invoke L = w.invoke_variadic L ∧
    w.invoke L = some (if L.length = w.Ctor_Args.length then w.invoker_class_invoke L
                       else variant.empty) ∧
    (6 < w.Ctor_Args.length → w.invoke L = some variant.empty) := by
  have h1 : w.invoke L = some (if L.length = w.Ctor_Args.length then w.invoker_class_invoke L
      else variant.empty) := by
    rw [invoke_eq_invoke_impl w L hk, invoke_impl_eq]
  refine ⟨by rw [h1, invoke_variadic_arity], h1, ?_⟩
  intro hN
  have hne : L.length ≠ w.Ctor_Args.length := by omega
  rw [h1, if_neg hne]

/-- Witness of C15 at a wrapper of arity 2 called with two arguments. -/
theorem invoke_fixed_arity_eq_variadic_witness :
    (⟨[int_, bool_], fun _ => variant.holds int_ 0, int_⟩ : constructor_wrapper).invoke
        [⟨int_, 1⟩, ⟨bool_, 2⟩]
      = (⟨[int_, bool_], fun _ => variant.holds int_ 0, int_⟩ :
          constructor_wrapper).invoke_variadic [⟨int_, 1⟩, ⟨bool_, 2⟩] :=
  (invoke_fixed_arity_eq_variadic ⟨[int_, bool_], fun _ => variant.holds int_ 0, int_⟩
    [⟨int_, 1⟩, ⟨bool_, 2⟩] (by decide)).1

/-! ## The factory wrapper next to the direct-construction wrapper -/

/-- C17: `has_default_types<A, P>` implies `has_default_args<P>`, which implies
`count_default_args<P>::value ≥ 1`; and when `has_default_types<A, P>` is true
the bundle type resolved for `get_default_args` is the type
`get_default_args_t<P>`. -/
theorem default_predicates_chain (A P : List CppType) :
    (has_default_types A P = true → has_default_args P = true) ∧
    (has_default_args P = true → 1 ≤ count_default_args P) ∧
    (has_default_types A P = true →
      find_default_args_t (get_default_args_t P) A = get_default_args_t P) := by
  have hres : has_default_types A P = true →
      find_default_args_t (get_default_args_t P) A = get_default_args_t P := by
    intro h
    rcases find_default_args_t_cases (get_default_args_t P) A with e | e
    · exact e
    · simp [has_default_types, e] at h
  refine ⟨?_, ?_, hres⟩
  · intro h
    have e := hres h
    unfold has_default_types at h
    unfold has_default_args
    rw [e] at h
    exact h
  · intro h
    unfold has_default_args get_default_args_t at h
    rcases first_split is_def_type P with hn | ⟨pre, t, post, hP, _, ht⟩
    · rw [get_default_args_impl_none P hn] at h
      simp at h
    · have hraw : raw_type_t t = t := by
        rcases (is_def_type_iff t).mp ht with ⟨T, rfl⟩
        rfl
      have hpos : 0 < count_default_args P := by
        unfold count_default_args
        rw [count_default_args_impl_eq, List.countP_map, List.countP_pos_iff]
        refine ⟨t, by rw [hP]; simp, ?_⟩
        simp only [Function.comp, hraw, ht]
      exact hpos

/-- Witness of C17 at the signature `(bool, int)` and the pack
`(char, default_args<int>)`. -/
theorem default_predicates_chain_witness :
    has_default_args [char_, default_args [int_]] = true ∧
    1 ≤ count_default_args [char_, default_args [int_]] ∧
    find_default_args_t (get_default_args_t [char_, default_args [int_]]) [bool_, int_]
      = get_default_args_t [char_, default_args [int_]] :=
  ⟨(default_predicates_chain [bool_, int_] [char_, default_args [int_]]).1 (by decide),
   (default_predicates_chain [bool_, int_] [char_, default_args [int_]]).2.1 (by decide),
   (default_predicates_chain [bool_, int_] [char_, default_args [int_]]).2.2 (by decide)⟩

end rttr
